import Mathlib

/-!
Verification of the asynchronous quantum-image-processing pipeline
(`src/app.py`, classes `ProductionQuantumProcessor` and `RealTimeProcessor`).

The embedding is shallow: images are rectangular lists of rational pixel
values, the numpy float computations are modelled over `ℚ` (exact gradient,
mean, variance arithmetic) and `ℝ` (square roots produced by `np.sqrt` /
`np.std`), wall-clock readings (`time.time()`, `datetime.now()`) are passed
in as rational-valued parameters, and the three transform routines plus the
worker/submit/poll operations of `RealTimeProcessor` are explicit state
transformers on a `ProcState` record.
-/

namespace QImg

/-- A 2D numeric image, as passed to the transforms (`image_data`). -/
abbrev Image := List (List ℚ)

/-- Number of columns of a rectangular image (numpy `shape[1]`). -/
def numCols (img : Image) : Nat := (img.headD []).length

/-- The image is a genuine 2D array: every row has the same length
(numpy only builds 2D arrays from rectangular data). -/
def Rectangular (img : Image) : Prop := ∀ row ∈ img, row.length = numCols img

instance (img : Image) : Decidable (Rectangular img) := by
  unfold Rectangular; infer_instance

/-- numpy `.size`: total number of elements. -/
def npSize (img : Image) : Nat := img.flatten.length

/-- numpy `np.mean` over a flat list (junk value 0 on the empty list,
where numpy would emit `nan`; never reached under the claims' hypotheses). -/
def npMeanQ (xs : List ℚ) : ℚ := xs.sum / xs.length

/-- numpy `np.var` over a flat list: mean of squared deviations. -/
def npVarQ (xs : List ℚ) : ℚ := ((xs.map (fun x => (x - npMeanQ xs) ^ 2)).sum) / xs.length

/-- numpy `np.min` (junk value 0 on the empty list, where numpy raises). -/
def npMinQ : List ℚ → ℚ
  | [] => 0
  | x :: xs => xs.foldl min x

/-- numpy `np.max` (junk value 0 on the empty list, where numpy raises). -/
def npMaxQ : List ℚ → ℚ
  | [] => 0
  | x :: xs => xs.foldl max x

/-- numpy `np.std` over rational data: square root of the variance. -/
noncomputable def npStdQ (xs : List ℚ) : ℝ := Real.sqrt (npVarQ xs)

/-- numpy `np.mean` over real data. -/
noncomputable def npMeanR (xs : List ℝ) : ℝ := xs.sum / xs.length

/-- numpy `np.var` over real data. -/
noncomputable def npVarR (xs : List ℝ) : ℝ := ((xs.map (fun x => (x - npMeanR xs) ^ 2)).sum) / xs.length

/-- numpy `np.std` over real data. -/
noncomputable def npStdR (xs : List ℝ) : ℝ := Real.sqrt (npVarR xs)

/-- Element access `image_data[i][j]` with numpy's in-range use only
(out-of-range defaults to 0; all uses stay in range). -/
def getE (img : Image) (i j : Nat) : ℚ := (img.getD i []).getD j 0

/-- One component of `np.gradient` along an axis of length `n` at index `j`:
one-sided differences at the two ends, central difference inside. -/
def cdiff (f : Nat → ℚ) (n j : Nat) : ℚ :=
  if j = 0 then f 1 - f 0
  else if j = n - 1 then f (n - 1) - f (n - 2)
  else (f (j + 1) - f (j - 1)) / 2

/-- `np.gradient(image_data, axis=1)`: derivative along each row. -/
def gradX (img : Image) : Image :=
  (List.range img.length).map fun i =>
    (List.range (numCols img)).map fun j => cdiff (getE img i) (numCols img) j

/-- `np.gradient(image_data, axis=0)`: derivative along each column. -/
def gradY (img : Image) : Image :=
  (List.range img.length).map fun i =>
    (List.range (numCols img)).map fun j => cdiff (fun k => getE img k j) img.length i

/-- `np.clip(x, 0, 1)`. -/
noncomputable def clip01 (x : ℝ) : ℝ := min (max x 0) 1

/-- The enhanced, clipped edge map: gradient magnitude, multiplied by the
enhancement factor 1.2 (= 6/5), clipped to [0, 1]. -/
noncomputable def edgeMap (img : Image) : List (List ℝ) :=
  (List.range img.length).map fun i =>
    (List.range (numCols img)).map fun j =>
      clip01 ((6 / 5 : ℝ) *
        Real.sqrt (((getE (gradX img) i j : ℚ) : ℝ) ^ 2 + ((getE (gradY img) i j : ℚ) : ℝ) ^ 2))

/-- `ProductionQuantumProcessor.quantum_edge_detection`.
`np.gradient` raises `ValueError` when an axis has fewer than 2 elements;
that failure is the `none` case. -/
noncomputable def quantum_edge_detection (img : Image) : Option (List (List ℝ)) :=
  if 2 ≤ img.length ∧ 2 ≤ numCols img then some (edgeMap img) else none

/-- `ProductionQuantumProcessor.quantum_image_compression`. The emitted
`compressed_data` array is random; only its length and the qubit count are
ever consumed, so the model returns `(compressed_size, n_qubits)`.
`int(len(flat)*0.25)` is exact float arithmetic, i.e. `⌊n/4⌋`, and
`int(np.log2(cs))` is `Nat.log2 cs` on the sizes that can reach the
uncapped branch. -/
def quantum_image_compression (img : Image) : Nat × Nat :=
  let compressed_size := max (npSize img / 4) 16
  (compressed_size, min 8 (Nat.log2 compressed_size))

/-- Keep the elements of a list at indices 0, 4, 8, ... (numpy `xs[::4]`). -/
def stride4 : List α → List α
  | [] => []
  | x :: xs => x :: stride4 (xs.drop 3)
termination_by xs => xs.length
decreasing_by simp; omega

/-- numpy `xs[i::4]`. -/
def every4 (xs : List α) (i : Nat) : List α := stride4 (xs.drop i)

/-- numpy `image_data[i::4, i::4]`. -/
def patch (img : Image) (i : Nat) : Image := (every4 img i).map (fun row => every4 row i)

/-- `ProductionQuantumProcessor.quantum_feature_extraction`: the four
statistical features, then the variance of each non-empty `i::4, i::4`
patch for `i = 0..3`. -/
noncomputable def quantum_feature_extraction (img : Image) : List ℝ :=
  let flat := img.flatten
  [((npMeanQ flat : ℚ) : ℝ), npStdQ flat, ((npMinQ flat : ℚ) : ℝ), ((npMaxQ flat : ℚ) : ℝ)] ++
    (List.range 4).filterMap (fun i =>
      if 0 < npSize (patch img i) then some (((npVarQ (patch img i).flatten : ℚ) : ℝ)) else none)

/-- Outcome of one invocation of the Transform collaborator — the three
`quantum_*` calls made by `_process_image`. `ok` carries the edge map,
the length of the (random) compressed array, the qubit count, and the
feature vector; `exn` carries `str(e)` of the raised exception. -/
inductive TransformResult where
  | ok (edge_map : List (List ℝ)) (compressed_len : Nat) (n_qubits : Nat) (features : List ℝ)
  | exn (msg : String)

/-- `str(e)` of the `ValueError` raised by `np.gradient` on a too-small axis. -/
def gradErrMsg : String :=
  "Shape of array too small to calculate a numerical gradient, at least (edge_order + 1) elements are required."

/-- The concrete Transform of `ProductionQuantumProcessor`: the composition
of the three `quantum_*` routines as invoked from `_process_image`. -/
noncomputable def quantumTransform (img : Image) : TransformResult :=
  match quantum_edge_detection img with
  | some em =>
      .ok em (quantum_image_compression img).1 (quantum_image_compression img).2
        (quantum_feature_extraction img)
  | none => .exn gradErrMsg

/-- A JSON-like value stored in the results cache (entries of the Python
dicts built by `_process_image`). Timestamps are modelled as the rational
clock reading that `datetime.now()` captured. -/
inductive Val where
  | vStr (s : String)
  | vNat (n : Nat)
  | vRat (q : ℚ)
  | vReal (x : ℝ)
  | vShape (r c : Nat)
  | vMat (m : List (List ℝ))
  | vList (l : List ℝ)
  | vDict (d : List (String × Val))

/-- A Python dict, as an ordered association list. -/
abbrev Entry := List (String × Val)

/-- Lookup of a key in a dict. -/
def dlookup (k : String) : Entry → Option Val
  | [] => none
  | (k', v) :: rest => if k' = k then some v else dlookup k rest

/-- The `result` dict built on the success path of `_process_image`
(keys in source order). -/
def successResult (id : String) (now dur : ℚ) (r c : Nat) (quality : ℝ) (crat : ℚ)
    (nq fc : Nat) : Entry :=
  [("image_id", .vStr id), ("timestamp", .vRat now), ("processing_time", .vRat dur),
   ("image_shape", .vShape r c), ("edge_detection_quality", .vReal quality),
   ("compression_ratio", .vRat crat), ("qubits_used", .vNat nq),
   ("feature_count", .vNat fc), ("status", .vStr "success")]

/-- The cache entry written on the success path: the result dict plus the
full edge map and feature vector. -/
def successEntry (id : String) (now dur : ℚ) (r c : Nat) (quality : ℝ) (crat : ℚ)
    (nq fc : Nat) (em : List (List ℝ)) (fs : List ℝ) : Entry :=
  [("result", .vDict (successResult id now dur r c quality crat nq fc)),
   ("edge_map", .vMat em), ("features", .vList fs)]

/-- The `result` dict built on the error path of `_process_image`. -/
def errorResult (id msg : String) : Entry :=
  [("image_id", .vStr id), ("status", .vStr "error"), ("error", .vStr msg)]

/-- The cache entry written on the error path: only the result dict. -/
def errorEntry (id msg : String) : Entry := [("result", .vDict (errorResult id msg))]

/-- The `stats` dict of `RealTimeProcessor`. -/
structure Stats where
  processed_images : Nat
  total_processing_time : ℚ
  average_processing_time : ℚ
  queue_size : Nat
  errors : Nat
  last_processed : Option ℚ

/-- `self.stats` as initialised in `RealTimeProcessor.__init__`. -/
def initStats : Stats :=
  { processed_images := 0, total_processing_time := 0, average_processing_time := 0,
    queue_size := 0, errors := 0, last_processed := none }

/-- The mutable state of one `RealTimeProcessor`: the task queue, the
results cache (Python dict, modelled as a map to optional entries), the
stats dict, and the `is_running` flag. -/
structure ProcState where
  queue : List (String × Image)
  results_cache : String → Option Entry
  stats : Stats
  is_running : Bool

/-- State after `RealTimeProcessor.__init__` (which calls
`start_processing`, setting `is_running = True`). -/
def initState : ProcState :=
  { queue := [], results_cache := fun _ => none, stats := initStats, is_running := true }

/-- Python dict assignment `results_cache[image_id] = entry`. -/
def cacheInsert (f : String → Option Entry) (k : String) (v : Entry) :
    String → Option Entry :=
  fun x => if x = k then some v else f x

/-- `RealTimeProcessor._process_image`, parameterised by the Transform `T`
(the spec's replaceable collaborator; `quantumTransform` is the concrete
one). `dur` is `time.time() - start_time`, `now` the `datetime.now()`
reading. On the success path the whole result construction sits inside the
`try`, so a zero-size image (where `len(compressed)/image_data.size`
raises `ZeroDivisionError`) also lands in the `except` branch. -/
noncomputable def process_image (T : Image → TransformResult) (s : ProcState)
    (id : String) (img : Image) (dur now : ℚ) : ProcState :=
  match T img with
  | .ok em cl nq fs =>
      if npSize img = 0 then
        { s with results_cache := cacheInsert s.results_cache id (errorEntry id "division by zero"),
                 stats := { s.stats with errors := s.stats.errors + 1 } }
      else
        { s with
          results_cache := cacheInsert s.results_cache id
            (successEntry id now dur img.length (numCols img)
              (npStdR em.flatten) ((cl : ℚ) / (npSize img : ℚ)) nq fs.length em fs),
          stats := { s.stats with
            processed_images := s.stats.processed_images + 1,
            total_processing_time := s.stats.total_processing_time + dur,
            average_processing_time :=
              (s.stats.total_processing_time + dur) / ((s.stats.processed_images : ℚ) + 1),
            last_processed := some now } }
  | .exn msg =>
      { s with results_cache := cacheInsert s.results_cache id (errorEntry id msg),
               stats := { s.stats with errors := s.stats.errors + 1 } }

/-- The identifier generated by `submit_image` when the caller supplies
none: `f"img_{int(time.time() * 1000)}"`. -/
def genId (now : ℚ) : String := "img_" ++ toString (⌊now * 1000⌋ : ℤ)

/-- `RealTimeProcessor.submit_image`: enqueue the task and refresh the
`queue_size` stat; returns the identifier. -/
def submit_image (s : ProcState) (img : Image) (image_id : Option String) (now : ℚ) :
    String × ProcState :=
  let id := image_id.getD (genId now)
  let q := s.queue ++ [(id, img)]
  (id, { s with queue := q, stats := { s.stats with queue_size := q.length } })

/-- `RealTimeProcessor.get_result`: `results_cache.get(image_id)`. -/
def get_result (s : ProcState) (id : String) : Option Entry := s.results_cache id

/-- `RealTimeProcessor.get_stats`: refresh `queue_size` from the queue and
return a copy of the stats dict. -/
def get_stats (s : ProcState) : Stats × ProcState :=
  let st := { s.stats with queue_size := s.queue.length }
  (st, { s with stats := st })

/-- One iteration of `RealTimeProcessor._processing_worker` that obtained
a task: pop the front of the queue and run `_process_image` on it. An
empty queue is the `queue.Empty` timeout, which just loops. -/
noncomputable def workerStep (T : Image → TransformResult) (s : ProcState)
    (dur now : ℚ) : ProcState :=
  match s.queue with
  | [] => s
  | (id, img) :: rest => process_image T { s with queue := rest } id img dur now

/-- The operations that drive the pipeline state: a submission (with its
clock reading), one worker processing step (with the task's measured
duration and completion time), a stats poll, and a result poll. -/
inductive Op where
  | submit (img : Image) (image_id : Option String) (now : ℚ)
  | work (dur now : ℚ)
  | pollStats
  | pollResult (id : String)

/-- Apply one operation to the state. -/
noncomputable def applyOp (T : Image → TransformResult) (s : ProcState) : Op → ProcState
  | .submit img image_id now => (submit_image s img image_id now).2
  | .work dur now => workerStep T s dur now
  | .pollStats => (get_stats s).2
  | .pollResult _ => s

/-- Run a sequence of operations. -/
noncomputable def runOps (T : Image → TransformResult) (s : ProcState) : List Op → ProcState
  | [] => s
  | op :: rest => runOps T (applyOp T s op) rest

/-- The effective identifier(s) submitted by one operation. -/
def opIds : Op → List String
  | .submit _ image_id now => [image_id.getD (genId now)]
  | _ => []

/-- All identifiers submitted across a sequence of operations. -/
def subIds (ops : List Op) : List String := (ops.map opIds).flatten

/-- The `result` dict stored for an identifier, if a terminal Result exists. -/
def resultDictOf (s : ProcState) (id : String) : Option Entry :=
  match s.results_cache id with
  | some e =>
      match dlookup "result" e with
      | some (.vDict d) => some d
      | _ => none
  | none => none

/-- One field of the stored `result` dict for an identifier. -/
def fieldOf (s : ProcState) (id key : String) : Option Val :=
  (resultDictOf s id).bind (dlookup key)

/-- The 4×4 all-zero image of the spec's scenario. -/
def zeroImg4 : Image := List.replicate 4 (List.replicate 4 0)

/-- The edge map of the all-zero 4×4 image. -/
def zeroEM : List (List ℝ) := List.replicate 4 (List.replicate 4 0)

/-- The feature vector of the all-zero 4×4 image. -/
def zeroFeats : List ℝ := List.replicate 8 0

/-- The cache entry `_process_image` writes for the all-zero 4×4 image:
all-zero edge map, zero edge quality, compression ratio 1, 4 qubits,
8 features. -/
def zeroSuccessEntry (id : String) (now dur : ℚ) : Entry :=
  successEntry id now dur 4 4 0 1 4 8 zeroEM zeroFeats

theorem gradX_zero : gradX zeroImg4 = List.replicate 4 (List.replicate 4 0) := by
  norm_num [gradX, zeroImg4, numCols, getE, cdiff, List.range_succ, List.replicate]

theorem gradY_zero : gradY zeroImg4 = List.replicate 4 (List.replicate 4 0) := by
  norm_num [gradY, zeroImg4, numCols, getE, cdiff, List.range_succ, List.replicate]

theorem zeroImg4_len : zeroImg4.length = 4 := by decide

theorem zeroImg4_cols : numCols zeroImg4 = 4 := by decide

theorem edge_zero : quantum_edge_detection zeroImg4 = some zeroEM := by
  rw [quantum_edge_detection, if_pos (by constructor <;> decide), edgeMap]
  rw [zeroImg4_len, zeroImg4_cols, gradX_zero, gradY_zero]
  norm_num [zeroEM, getE, clip01, List.range_succ, List.replicate, Real.sqrt_zero]

theorem npSize_zeroImg4 : npSize zeroImg4 = 16 := by decide

theorem log2_16 : Nat.log2 16 = 4 := by
  rw [show (16:ℕ) = 2 ^ 4 from rfl, Nat.log2_two_pow]

theorem compression_zero : quantum_image_compression zeroImg4 = (16, 4) := by
  rw [quantum_image_compression, npSize_zeroImg4]
  norm_num [log2_16]

theorem patch_zero_0 : patch zeroImg4 0 = [[0]] := by
  simp [patch, every4, stride4, zeroImg4, List.replicate]

theorem patch_zero_1 : patch zeroImg4 1 = [[0]] := by
  simp [patch, every4, stride4, zeroImg4, List.replicate]

theorem patch_zero_2 : patch zeroImg4 2 = [[0]] := by
  simp [patch, every4, stride4, zeroImg4, List.replicate]

theorem patch_zero_3 : patch zeroImg4 3 = [[0]] := by
  simp [patch, every4, stride4, zeroImg4, List.replicate]

theorem flat_zeroImg4 : zeroImg4.flatten = List.replicate 16 0 := by decide

theorem features_zero : quantum_feature_extraction zeroImg4 = zeroFeats := by
  rw [quantum_feature_extraction, flat_zeroImg4]
  rw [show (List.range 4) = [0, 1, 2, 3] from rfl]
  simp only [List.filterMap_cons, List.filterMap_nil,
    patch_zero_0, patch_zero_1, patch_zero_2, patch_zero_3]
  norm_num [zeroFeats, List.replicate, npMeanQ, npVarQ, npMinQ, npMaxQ, npStdQ, npSize,
    Real.sqrt_zero]

theorem std_zeroEM : npStdR zeroEM.flatten = 0 := by
  norm_num [zeroEM, List.replicate, npStdR, npVarR, npMeanR, Real.sqrt_zero]

theorem transform_zero : quantumTransform zeroImg4 = .ok zeroEM 16 4 zeroFeats := by
  rw [quantumTransform, edge_zero, compression_zero, features_zero]

theorem zeroFeats_len : zeroFeats.length = 8 := by decide

/-- Processing the all-zero 4×4 image with the concrete Transform: the
success entry is written and the success-path stats update happens. -/
theorem process_zero (s : ProcState) (id : String) (dur now : ℚ) :
    process_image quantumTransform s id zeroImg4 dur now =
    { s with
      results_cache := cacheInsert s.results_cache id (zeroSuccessEntry id now dur),
      stats := { s.stats with
        processed_images := s.stats.processed_images + 1,
        total_processing_time := s.stats.total_processing_time + dur,
        average_processing_time :=
          (s.stats.total_processing_time + dur) / ((s.stats.processed_images : ℚ) + 1),
        last_processed := some now } } := by
  simp only [process_image, transform_zero, npSize_zeroImg4, zeroImg4_len, zeroImg4_cols]
  norm_num [zeroSuccessEntry, std_zeroEM, zeroFeats_len]

/-- Processing a task whose Transform raises: the error entry is written
and only the error counter changes. -/
theorem process_exn (T : Image → TransformResult) (s : ProcState) (id : String)
    (img : Image) (dur now : ℚ) (msg : String) (h : T img = .exn msg) :
    process_image T s id img dur now =
    { s with results_cache := cacheInsert s.results_cache id (errorEntry id msg),
             stats := { s.stats with errors := s.stats.errors + 1 } } := by
  simp only [process_image, h]

/-- `np.gradient` fails on any image with a too-small axis. -/
theorem edge_small (img : Image) (h : img.length < 2 ∨ numCols img < 2) :
    quantum_edge_detection img = none := by
  rw [quantum_edge_detection, if_neg]; omega

/-- The concrete Transform raises on any image with a too-small axis. -/
theorem transform_small (img : Image) (h : img.length < 2 ∨ numCols img < 2) :
    quantumTransform img = .exn gradErrMsg := by
  rw [quantumTransform, edge_small img h]

/-- The concrete Transform succeeds on any image with both axes ≥ 2. -/
theorem transform_ok (img : Image) (h1 : 2 ≤ img.length) (h2 : 2 ≤ numCols img) :
    quantumTransform img =
      .ok (edgeMap img) (quantum_image_compression img).1 (quantum_image_compression img).2
        (quantum_feature_extraction img) := by
  rw [quantumTransform, quantum_edge_detection, if_pos ⟨h1, h2⟩]

/-- An image with a nonempty first row has elements. -/
theorem npSize_pos (img : Image) (h1 : 1 ≤ img.length) (h2 : 1 ≤ numCols img) :
    0 < npSize img := by
  match img with
  | [] => simp at h1
  | r :: rest =>
      simp only [npSize, List.flatten_cons, List.length_append]
      have : 1 ≤ r.length := h2
      omega

/-- Generic success path of `_process_image`. -/
theorem process_ok (T : Image → TransformResult) (s : ProcState) (id : String)
    (img : Image) (dur now : ℚ) (em : List (List ℝ)) (cl nq : Nat) (fs : List ℝ)
    (h : T img = .ok em cl nq fs) (h0 : npSize img ≠ 0) :
    process_image T s id img dur now =
    { s with
      results_cache := cacheInsert s.results_cache id
        (successEntry id now dur img.length (numCols img)
          (npStdR em.flatten) ((cl : ℚ) / (npSize img : ℚ)) nq fs.length em fs),
      stats := { s.stats with
        processed_images := s.stats.processed_images + 1,
        total_processing_time := s.stats.total_processing_time + dur,
        average_processing_time :=
          (s.stats.total_processing_time + dur) / ((s.stats.processed_images : ℚ) + 1),
        last_processed := some now } } := by
  simp only [process_image, h, if_neg h0]

/-! ## Claims -/

/-- C1 counterexample: a Transform forced to raise an exception whose
`str` is empty (as `raise Exception()` does) yields an Error Result whose
error message is the empty string — not a non-empty one. -/
theorem C1_cex :
    let s' := process_image (fun _ => .exn "") initState "t1" [[(0:ℚ)]] 1 1
    fieldOf s' "t1" "status" = some (.vStr "error") ∧
    fieldOf s' "t1" "error" = some (.vStr "") := by
  intro s'
  rw [show s' = process_image (fun _ => .exn "") initState "t1" [[(0:ℚ)]] 1 1 from rfl,
    process_exn _ _ _ _ _ _ _ rfl]
  simp [fieldOf, resultDictOf, cacheInsert, dlookup, errorEntry, errorResult]

/-- C1 (amended): for every task whose Transform raises an exception, the
worker writes a terminal Result for that task's identifier with status
`error` and an error message equal to the exception's string (non-empty
whenever that string is), increments the error counter by exactly 1,
leaves `processed_images` and `total_processing_time` unchanged, and the
exception never prevents other tasks from being processed (the rest of
the queue and every other identifier's cache entry are untouched). -/
theorem C1_thm (T : Image → TransformResult) (s : ProcState) (id : String)
    (img : Image) (dur now : ℚ) (msg : String) (h : T img = .exn msg) :
    let s' := process_image T s id img dur now
    s'.results_cache id = some (errorEntry id msg) ∧
    fieldOf s' id "status" = some (.vStr "error") ∧
    fieldOf s' id "error" = some (.vStr msg) ∧
    s'.stats.errors = s.stats.errors + 1 ∧
    s'.stats.processed_images = s.stats.processed_images ∧
    s'.stats.total_processing_time = s.stats.total_processing_time ∧
    s'.queue = s.queue ∧
    (∀ id2, id2 ≠ id → s'.results_cache id2 = s.results_cache id2) := by
  intro s'
  rw [show s' = process_image T s id img dur now from rfl, process_exn T s id img dur now msg h]
  refine ⟨by simp [cacheInsert], ?_, ?_, rfl, rfl, rfl, rfl, ?_⟩
  · simp [fieldOf, resultDictOf, cacheInsert, dlookup, errorEntry, errorResult]
  · simp [fieldOf, resultDictOf, cacheInsert, dlookup, errorEntry, errorResult]
  · intro id2 hne; simp [cacheInsert, hne]

/-- C1 witness: a forced failure on one concrete task bumps the error
counter from 0 to 1. -/
theorem C1_witness :
    (process_image (fun _ => .exn "boom") initState "a" [[(0:ℚ)]] 1 1).stats.errors =
      initState.stats.errors + 1 :=
  (C1_thm (fun _ => .exn "boom") initState "a" [[(0:ℚ)]] 1 1 "boom" rfl).2.2.2.1

/-- C2 counterexample: the terminal Error Result written for the 1-by-1
image (where `np.gradient` raises) contains none of `timestamp`,
`processing_time` (processingDurationSeconds), `image_shape`,
`edge_detection_quality`, `compression_ratio`, `qubits_used`,
`feature_count`, and its cache entry holds no edge map or feature list —
refuting the claim that every terminal Result carries all those fields. -/
theorem C2_cex :
    let s' := process_image quantumTransform initState "a" [[(0:ℚ)]] 1 1
    (resultDictOf s' "a").isSome ∧
    fieldOf s' "a" "status" = some (.vStr "error") ∧
    fieldOf s' "a" "timestamp" = none ∧
    fieldOf s' "a" "processing_time" = none ∧
    fieldOf s' "a" "image_shape" = none ∧
    fieldOf s' "a" "edge_detection_quality" = none ∧
    fieldOf s' "a" "compression_ratio" = none ∧
    fieldOf s' "a" "qubits_used" = none ∧
    fieldOf s' "a" "feature_count" = none ∧
    (∃ e, s'.results_cache "a" = some e ∧ dlookup "edge_map" e = none ∧
      dlookup "features" e = none) := by
  intro s'
  rw [show s' = process_image quantumTransform initState "a" [[(0:ℚ)]] 1 1 from rfl,
    process_exn _ _ _ _ _ _ _ (transform_small [[(0:ℚ)]] (by right; decide))]
  refine ⟨?_, ?_, ?_, ?_, ?_, ?_, ?_, ?_, ?_, ?_⟩ <;>
    simp [fieldOf, resultDictOf, cacheInsert, dlookup, errorEntry, errorResult]

/-- C2 (amended): a Success Result contains exactly the identifier,
timestamp, processing duration, source shape, edge-quality metric,
compression ratio, qubits-used, feature count and status fields (no error
message), with the full edge map and feature vector stored alongside it;
an Error Result contains exactly the identifier, status and error
message, and nothing else. -/
theorem C2_thm (T : Image → TransformResult) (s : ProcState) (id : String)
    (img : Image) (dur now : ℚ) :
    (∀ em cl nq fs, T img = .ok em cl nq fs → npSize img ≠ 0 →
      ∃ d, resultDictOf (process_image T s id img dur now) id = some d ∧
        d.map Prod.fst = ["image_id", "timestamp", "processing_time", "image_shape",
          "edge_detection_quality", "compression_ratio", "qubits_used", "feature_count",
          "status"] ∧
        dlookup "status" d = some (.vStr "success") ∧ dlookup "error" d = none ∧
        ∃ e, (process_image T s id img dur now).results_cache id = some e ∧
          e.map Prod.fst = ["result", "edge_map", "features"]) ∧
    (∀ msg, T img = .exn msg →
      ∃ d, resultDictOf (process_image T s id img dur now) id = some d ∧
        d.map Prod.fst = ["image_id", "status", "error"] ∧
        dlookup "status" d = some (.vStr "error") ∧ dlookup "error" d = some (.vStr msg) ∧
        ∃ e, (process_image T s id img dur now).results_cache id = some e ∧
          e.map Prod.fst = ["result"]) := by
  constructor
  · intro em cl nq fs h h0
    rw [process_ok T s id img dur now em cl nq fs h h0]
    refine ⟨successResult id now dur img.length (numCols img) (npStdR em.flatten)
        ((cl : ℚ) / (npSize img : ℚ)) nq fs.length, ?_, ?_, ?_, ?_,
      successEntry id now dur img.length (numCols img) (npStdR em.flatten)
        ((cl : ℚ) / (npSize img : ℚ)) nq fs.length em fs, ?_, ?_⟩ <;>
      simp [resultDictOf, cacheInsert, dlookup, successEntry, successResult]
  · intro msg h
    rw [process_exn T s id img dur now msg h]
    refine ⟨errorResult id msg, ?_, ?_, ?_, ?_, errorEntry id msg, ?_, ?_⟩ <;>
      simp [resultDictOf, cacheInsert, dlookup, errorEntry, errorResult]

/-- C2 witness: both branches at concrete inputs — the 4-by-4 zero image
succeeds with the full field list, the 1-by-1 image fails with the short
one. -/
theorem C2_witness :
    (∃ d, resultDictOf (process_image quantumTransform initState "a" zeroImg4 1 1) "a" = some d ∧
      d.map Prod.fst = ["image_id", "timestamp", "processing_time", "image_shape",
        "edge_detection_quality", "compression_ratio", "qubits_used", "feature_count",
        "status"] ∧
      dlookup "status" d = some (.vStr "success") ∧ dlookup "error" d = none ∧
      ∃ e, (process_image quantumTransform initState "a" zeroImg4 1 1).results_cache "a" =
          some e ∧ e.map Prod.fst = ["result", "edge_map", "features"]) ∧
    (∃ d, resultDictOf (process_image quantumTransform initState "b" [[(0:ℚ)]] 1 1) "b" =
        some d ∧
      d.map Prod.fst = ["image_id", "status", "error"] ∧
      dlookup "status" d = some (.vStr "error") ∧
      dlookup "error" d = some (.vStr gradErrMsg) ∧
      ∃ e, (process_image quantumTransform initState "b" [[(0:ℚ)]] 1 1).results_cache "b" =
          some e ∧ e.map Prod.fst = ["result"]) :=
  ⟨(C2_thm quantumTransform initState "a" zeroImg4 1 1).1 zeroEM 16 4 zeroFeats
      transform_zero (by decide),
   (C2_thm quantumTransform initState "b" [[(0:ℚ)]] 1 1).2 gradErrMsg
      (transform_small [[(0:ℚ)]] (by right; decide))⟩

/-- C6: in every Success Result produced by the concrete Transform the
`qubits_used` field equals `min 8 (log2 compressed_size)`, the compressed
size is at least 16, and the qubit count lies between 4 and 8. -/
theorem C6_thm (s : ProcState) (id : String) (img : Image) (dur now : ℚ)
    (h1 : 2 ≤ img.length) (h2 : 2 ≤ numCols img) :
    fieldOf (process_image quantumTransform s id img dur now) id "qubits_used" =
      some (.vNat (quantum_image_compression img).2) ∧
    (quantum_image_compression img).2 = min 8 (Nat.log2 (quantum_image_compression img).1) ∧
    16 ≤ (quantum_image_compression img).1 ∧
    4 ≤ (quantum_image_compression img).2 ∧
    (quantum_image_compression img).2 ≤ 8 := by
  have h0 : npSize img ≠ 0 := (npSize_pos img (by omega) (by omega)).ne'
  refine ⟨?_, rfl, le_max_right _ _, ?_, min_le_left _ _⟩
  · rw [process_ok quantumTransform s id img dur now _ _ _ _ (transform_ok img h1 h2) h0]
    simp [fieldOf, resultDictOf, cacheInsert, dlookup, successEntry, successResult]
  · refine le_min (by norm_num) ?_
    refine (Nat.le_log2 ?_).mpr ?_
    · simp [quantum_image_compression]
    · simp [quantum_image_compression]

/-- C6 witness: the 4-by-4 zero image reports 4 qubits, within [4, 8]. -/
theorem C6_witness :
    fieldOf (process_image quantumTransform initState "a" zeroImg4 1 1) "a" "qubits_used" =
      some (.vNat (quantum_image_compression zeroImg4).2) ∧
    (quantum_image_compression zeroImg4).2 =
      min 8 (Nat.log2 (quantum_image_compression zeroImg4).1) ∧
    16 ≤ (quantum_image_compression zeroImg4).1 ∧
    4 ≤ (quantum_image_compression zeroImg4).2 ∧
    (quantum_image_compression zeroImg4).2 ≤ 8 :=
  C6_thm initState "a" zeroImg4 1 1 (by decide) (by decide)

/-- C7: the `compression_ratio` field of a Success Result equals
`max(⌊n/4⌋, 16) / n` for an `n`-element image, and for the 16-element
zero image it is exactly 1 (not the nominal 0.25). -/
theorem C7_thm (s : ProcState) (id : String) (img : Image) (dur now : ℚ)
    (h1 : 2 ≤ img.length) (h2 : 2 ≤ numCols img) :
    fieldOf (process_image quantumTransform s id img dur now) id "compression_ratio" =
      some (.vRat (((max (npSize img / 4) 16 : ℕ) : ℚ) / (npSize img : ℚ))) ∧
    fieldOf (process_image quantumTransform initState "z" zeroImg4 1 1) "z"
      "compression_ratio" = some (.vRat 1) := by
  have h0 : npSize img ≠ 0 := (npSize_pos img (by omega) (by omega)).ne'
  constructor
  · rw [process_ok quantumTransform s id img dur now _ _ _ _ (transform_ok img h1 h2) h0]
    simp [fieldOf, resultDictOf, cacheInsert, dlookup, successEntry, successResult,
      quantum_image_compression]
  · rw [process_zero]
    simp [fieldOf, resultDictOf, cacheInsert, dlookup, zeroSuccessEntry, successEntry,
      successResult]

/-- C7 witness: for the 16-element zero image the stored ratio is
`max(4, 16)/16 = 1`. -/
theorem C7_witness :
    fieldOf (process_image quantumTransform initState "a" zeroImg4 1 1) "a"
      "compression_ratio" =
      some (.vRat (((max (npSize zeroImg4 / 4) 16 : ℕ) : ℚ) / (npSize zeroImg4 : ℚ))) ∧
    fieldOf (process_image quantumTransform initState "z" zeroImg4 1 1) "z"
      "compression_ratio" = some (.vRat 1) :=
  C7_thm initState "a" zeroImg4 1 1 (by decide) (by decide)


/-- The stats invariant of C4. -/
def statsOK (st : Stats) : Prop :=
  (0 < st.processed_images →
    st.average_processing_time = st.total_processing_time / (st.processed_images : ℚ)) ∧
  (st.processed_images = 0 → st.average_processing_time = 0)

theorem process_ok_empty (T : Image → TransformResult) (s : ProcState) (id : String)
    (img : Image) (dur now : ℚ) (em : List (List ℝ)) (cl nq : Nat) (fs : List ℝ)
    (h : T img = .ok em cl nq fs) (h0 : npSize img = 0) :
    process_image T s id img dur now =
    { s with results_cache := cacheInsert s.results_cache id
               (errorEntry id "division by zero"),
             stats := { s.stats with errors := s.stats.errors + 1 } } := by
  simp only [process_image, h, if_pos h0]

theorem workerStep_nil (T : Image → TransformResult) (s : ProcState) (dur now : ℚ)
    (hq : s.queue = []) : workerStep T s dur now = s := by
  simp only [workerStep, hq]

theorem workerStep_cons (T : Image → TransformResult) (s : ProcState) (id : String)
    (img : Image) (rest : List (String × Image)) (dur now : ℚ)
    (hq : s.queue = (id, img) :: rest) :
    workerStep T s dur now = process_image T { s with queue := rest } id img dur now := by
  simp only [workerStep, hq]

theorem statsOK_step (T : Image → TransformResult) (s : ProcState) (op : Op)
    (h : statsOK s.stats) : statsOK (applyOp T s op).stats := by
  cases op with
  | pollResult id => exact h
  | pollStats =>
      simp only [applyOp, get_stats]
      exact ⟨h.1, h.2⟩
  | submit img image_id now =>
      simp only [applyOp, submit_image]
      exact ⟨h.1, h.2⟩
  | work dur now =>
      simp only [applyOp]
      cases hq : s.queue with
      | nil => rw [workerStep_nil T s dur now hq]; exact h
      | cons t rest =>
          obtain ⟨id, img⟩ := t
          rw [workerStep_cons T s id img rest dur now hq]
          cases hT : T img with
          | exn msg =>
              rw [process_exn T _ id img dur now msg hT]
              exact ⟨h.1, h.2⟩
          | ok em cl nq fs =>
              by_cases h0 : npSize img = 0
              · rw [process_ok_empty T _ id img dur now em cl nq fs hT h0]
                exact ⟨h.1, h.2⟩
              · rw [process_ok T _ id img dur now em cl nq fs hT h0]
                constructor
                · intro
                  push_cast
                  ring_nf
                · intro hzero
                  simp at hzero

theorem statsOK_run (T : Image → TransformResult) (ops : List Op) (s : ProcState)
    (h : statsOK s.stats) : statsOK (runOps T s ops).stats := by
  induction ops generalizing s with
  | nil => exact h
  | cons op rest ih => exact ih _ (statsOK_step T s op h)


/-- C4: after every sequence of pipeline operations, whenever
`processed_images > 0` the stats satisfy
`average_processing_time = total_processing_time / processed_images`,
and while no task has completed successfully the average is zero; both
successful and failed processing steps preserve this invariant. -/
theorem C4_thm (T : Image → TransformResult) (ops : List Op) :
    (0 < (runOps T initState ops).stats.processed_images →
      (runOps T initState ops).stats.average_processing_time =
        (runOps T initState ops).stats.total_processing_time /
          ((runOps T initState ops).stats.processed_images : ℚ)) ∧
    ((runOps T initState ops).stats.processed_images = 0 →
      (runOps T initState ops).stats.average_processing_time = 0) :=
  statsOK_run T ops initState ⟨fun h => absurd h (by simp [initState, initStats]), fun _ => rfl⟩

/-- C4 witness: after one successful completion the average equals
total over count. -/
theorem C4_witness :
    0 < (runOps quantumTransform initState
        [.submit zeroImg4 (some "a") 0, .work 3 1]).stats.processed_images ∧
    (runOps quantumTransform initState
        [.submit zeroImg4 (some "a") 0, .work 3 1]).stats.average_processing_time =
      (runOps quantumTransform initState
          [.submit zeroImg4 (some "a") 0, .work 3 1]).stats.total_processing_time /
        ((runOps quantumTransform initState
            [.submit zeroImg4 (some "a") 0, .work 3 1]).stats.processed_images : ℚ) := by
  have hpos : 0 < (runOps quantumTransform initState
      [.submit zeroImg4 (some "a") 0, .work 3 1]).stats.processed_images := by
    simp [runOps, applyOp, submit_image, workerStep, process_zero, initState, initStats]
  exact ⟨hpos, (C4_thm quantumTransform [.submit zeroImg4 (some "a") 0, .work 3 1]).1 hpos⟩


/-- C9: for every 2D numeric image on which edge detection returns an
edge map, that map has the same shape as the input and every element
lies in [0, 1] (the clip bounds the 1.2-enhanced magnitudes). -/
theorem C9_thm (img : Image) (e : List (List ℝ)) (hrect : Rectangular img)
    (h : quantum_edge_detection img = some e) :
    e.length = img.length ∧ (∀ row ∈ e, row.length = numCols img) ∧
    (∀ row ∈ img, row.length = numCols img) ∧
    (∀ row ∈ e, ∀ x ∈ row, 0 ≤ x ∧ x ≤ 1) := by
  rw [quantum_edge_detection] at h
  by_cases hc : 2 ≤ img.length ∧ 2 ≤ numCols img
  · rw [if_pos hc] at h
    obtain rfl : edgeMap img = e := by injection h
    refine ⟨by simp [edgeMap], ?_, hrect, ?_⟩
    · intro row hrow
      simp only [edgeMap, List.mem_map] at hrow
      obtain ⟨i, _, rfl⟩ := hrow
      simp
    · intro row hrow x hx
      simp only [edgeMap, List.mem_map] at hrow
      obtain ⟨i, _, rfl⟩ := hrow
      simp only [List.mem_map] at hx
      obtain ⟨j, _, rfl⟩ := hx
      unfold clip01
      constructor
      · exact le_min (le_max_right _ _) zero_le_one
      · exact min_le_right _ _
  · rw [if_neg hc] at h
    exact absurd h (by simp)

/-- C9 witness: the 4×4 zero image returns the all-zero 4×4 edge map,
with matching shape and entries inside [0, 1]. -/
theorem C9_witness :
    zeroEM.length = zeroImg4.length ∧ (∀ row ∈ zeroEM, row.length = numCols zeroImg4) ∧
    (∀ row ∈ zeroImg4, row.length = numCols zeroImg4) ∧
    (∀ row ∈ zeroEM, ∀ x ∈ row, 0 ≤ x ∧ x ≤ 1) :=
  C9_thm zeroImg4 zeroEM (by decide) edge_zero


theorem stride4_eq_nil (l : List α) : stride4 l = [] ↔ l = [] := by
  cases l with
  | nil => simp [stride4]
  | cons x xs => simp [stride4]

theorem stride4_subset (l : List α) : ∀ x ∈ stride4 l, x ∈ l := by
  induction l using stride4.induct with
  | case1 => simp [stride4]
  | case2 y ys ih =>
      intro x hx
      rw [stride4] at hx
      rcases List.mem_cons.mp hx with rfl | hx
      · exact List.mem_cons_self _ _
      · exact List.mem_cons_of_mem _ (List.mem_of_mem_drop (ih x hx))

theorem every4_ne_nil (xs : List α) (i : Nat) : every4 xs i ≠ [] ↔ i < xs.length := by
  rw [every4, ne_eq, stride4_eq_nil, List.drop_eq_nil_iff]
  omega

theorem patch_size_pos_iff (img : Image) (hrect : Rectangular img) (i : Nat) :
    0 < npSize (patch img i) ↔ i < img.length ∧ i < numCols img := by
  rw [npSize, List.length_pos, ne_eq, List.flatten_eq_nil_iff]
  push_neg
  constructor
  · rintro ⟨row, hrow, hne⟩
    rw [patch, List.mem_map] at hrow
    obtain ⟨r, hr, rfl⟩ := hrow
    have hrimg : r ∈ img := List.mem_of_mem_drop (stride4_subset _ _ hr)
    have hlen : r.length = numCols img := hrect r hrimg
    have h1 : (every4 img i) ≠ [] := by rintro hnil; rw [hnil] at hr; simp at hr
    refine ⟨(every4_ne_nil img i).mp h1, ?_⟩
    have := (every4_ne_nil r i).mp hne
    omega
  · rintro ⟨h1, h2⟩
    obtain ⟨r, rest, hcons⟩ := List.exists_cons_of_ne_nil ((every4_ne_nil img i).mpr h1)
    refine ⟨every4 r i, ?_, ?_⟩
    · rw [patch, List.mem_map]
      exact ⟨r, by rw [hcons]; exact List.mem_cons_self _ _, rfl⟩
    · have hmem : r ∈ every4 img i := by
        rw [hcons]; exact List.mem_cons_self _ _
      have hrimg : r ∈ img :=
        List.mem_of_mem_drop (stride4_subset (List.drop i img) r hmem)
      rw [every4_ne_nil, hrect r hrimg]
      exact h2

theorem length_filterMap_ite (p : α → Prop) [DecidablePred p] (g : α → β) (l : List α) :
    (l.filterMap (fun a => if p a then some (g a) else none)).length =
      (l.filter (fun a => decide (p a))).length := by
  induction l with
  | nil => simp
  | cons x xs ih =>
      by_cases hp : p x <;> simp [List.filterMap_cons, List.filter_cons, hp, ih]


/-- C10: for every non-empty 2D image, the feature-vector length equals
4 plus the number of indices `i ∈ {0,1,2,3}` with both dimensions greater
than `i`; in particular it is 8 when both dimensions are at least 4 and
5 for a 1×1 image. -/
theorem C10_thm (img : Image) (hrect : Rectangular img) (h1 : 0 < img.length)
    (h2 : 0 < numCols img) :
    (quantum_feature_extraction img).length =
      4 + ((List.range 4).filter
        (fun i => decide (i < img.length) && decide (i < numCols img))).length ∧
    (4 ≤ img.length → 4 ≤ numCols img → (quantum_feature_extraction img).length = 8) ∧
    (img.length = 1 → numCols img = 1 → (quantum_feature_extraction img).length = 5) := by
  have key : (quantum_feature_extraction img).length =
      4 + ((List.range 4).filter
        (fun i => decide (i < img.length) && decide (i < numCols img))).length := by
    rw [quantum_feature_extraction]
    simp only [List.length_append, List.length_cons, List.length_nil]
    rw [length_filterMap_ite (fun i => 0 < npSize (patch img i))
      (fun i => ((npVarQ (patch img i).flatten : ℚ) : ℝ)) (List.range 4)]
    rw [List.filter_congr (fun i _ => ?_)]
    rw [show (decide (i < img.length) && decide (i < numCols img)) =
        decide (i < img.length ∧ i < numCols img) by simp]
    exact decide_eq_decide.mpr (patch_size_pos_iff img hrect i)
  refine ⟨key, ?_, ?_⟩
  · intro h4r h4c
    rw [key, List.filter_eq_self.mpr ?_]
    · simp
    · intro i hi
      simp only [List.mem_range] at hi
      simp; omega
  · intro hr hc
    rw [key, hr, hc]
    simp [List.range_succ, List.filter_cons, List.filter_nil]

/-- C10 witness: a 1×1 image yields exactly 5 features. -/
theorem C10_witness : (quantum_feature_extraction [[(5:ℚ)]]).length = 5 :=
  (C10_thm [[(5:ℚ)]] (by decide) (by decide) (by decide)).2.2 (by decide) (by decide)


/-- Every branch of `_process_image` writes exactly one cache entry, under
the task's identifier, and leaves the queue and running flag alone. -/
theorem process_image_cache (T : Image → TransformResult) (s : ProcState) (id : String)
    (img : Image) (dur now : ℚ) :
    ∃ entry, (process_image T s id img dur now).results_cache =
        cacheInsert s.results_cache id entry ∧
      (process_image T s id img dur now).queue = s.queue := by
  cases hT : T img with
  | exn msg => rw [process_exn T s id img dur now msg hT]; exact ⟨_, rfl, rfl⟩
  | ok em cl nq fs =>
      by_cases h0 : npSize img = 0
      · rw [process_ok_empty T s id img dur now em cl nq fs hT h0]; exact ⟨_, rfl, rfl⟩
      · rw [process_ok T s id img dur now em cl nq fs hT h0]; exact ⟨_, rfl, rfl⟩

/-- The freshness invariant: queued identifiers are distinct, belong to
the already-submitted set, and have no cache entry yet; cached
identifiers were submitted. -/
def Inv (s : ProcState) (seen : List String) : Prop :=
  (s.queue.map Prod.fst).Nodup ∧
  (∀ p ∈ s.queue, p.1 ∈ seen ∧ s.results_cache p.1 = none) ∧
  (∀ id, s.results_cache id ≠ none → id ∈ seen)

theorem inv_step (T : Image → TransformResult) (s : ProcState) (seen : List String)
    (op : Op) (hI : Inv s seen) (hfresh : ∀ id ∈ opIds op, id ∉ seen) :
    Inv (applyOp T s op) (seen ++ opIds op) ∧
    (∀ id e, s.results_cache id = some e →
      (applyOp T s op).results_cache id = some e) := by
  obtain ⟨hnd, hq, hdom⟩ := hI
  cases op with
  | pollResult id =>
      simp only [applyOp, opIds, List.append_nil]
      exact ⟨⟨hnd, hq, hdom⟩, fun _ _ h => h⟩
  | pollStats =>
      simp only [applyOp, get_stats, opIds, List.append_nil]
      exact ⟨⟨hnd, hq, hdom⟩, fun _ _ h => h⟩
  | submit img image_id now =>
      simp only [applyOp, submit_image, opIds]
      set nid := image_id.getD (genId now) with hnid
      have hnotseen : nid ∉ seen := hfresh nid (by simp [opIds, hnid])
      refine ⟨⟨?_, ?_, ?_⟩, fun _ _ h => h⟩
      · rw [List.map_append, List.nodup_append]
        refine ⟨hnd, by simp, ?_⟩
        intro a ha
        simp only [List.map_cons, List.map_nil, List.mem_singleton]
        rintro rfl
        obtain ⟨p, hp, hp1⟩ := List.mem_map.mp ha
        exact hnotseen (hp1 ▸ (hq p hp).1)
      · intro p hp
        rcases List.mem_append.mp hp with hp | hp
        · exact ⟨List.mem_append_left _ (hq p hp).1, (hq p hp).2⟩
        · simp only [List.mem_singleton] at hp
          subst hp
          refine ⟨List.mem_append_right _ (by simp), ?_⟩
          by_contra hne
          exact hnotseen (hdom nid hne)
      · intro id hne
        exact List.mem_append_left _ (hdom id hne)
  | work dur now =>
      simp only [applyOp, opIds, List.append_nil]
      cases hq' : s.queue with
      | nil => rw [workerStep_nil T s dur now hq']; exact ⟨⟨hnd, hq, hdom⟩, fun _ _ h => h⟩
      | cons t rest =>
          obtain ⟨id, img⟩ := t
          rw [workerStep_cons T s id img rest dur now hq']
          obtain ⟨entry, hcache, hqueue⟩ :=
            process_image_cache T { s with queue := rest } id img dur now
          have hidnone : s.results_cache id = none := (hq (id, img) (by rw [hq']; simp)).2
          have hidseen : id ∈ seen := (hq (id, img) (by rw [hq']; simp)).1
          rw [hq'] at hnd
          simp only [List.map_cons, List.nodup_cons] at hnd
          refine ⟨⟨?_, ?_, ?_⟩, ?_⟩
          · rw [hqueue]; exact hnd.2
          · intro p hp
            rw [hqueue] at hp
            have hpseen := hq p (by rw [hq']; exact List.mem_cons_of_mem _ hp)
            refine ⟨hpseen.1, ?_⟩
            rw [hcache, cacheInsert, if_neg, hpseen.2]
            intro hpe
            exact hnd.1 (hpe ▸ List.mem_map_of_mem Prod.fst hp)
          · intro id' hne
            rw [hcache, cacheInsert] at hne
            by_cases hid : id' = id
            · exact hid ▸ hidseen
            · rw [if_neg hid] at hne
              exact hdom id' hne
          · intro id' e he
            rw [hcache, cacheInsert, if_neg, he]
            rintro rfl
            rw [hidnone] at he
            exact Option.noConfusion he


theorem subIds_append (ops1 ops2 : List Op) :
    subIds (ops1 ++ ops2) = subIds ops1 ++ subIds ops2 := by
  simp [subIds]

theorem runOps_append (T : Image → TransformResult) (s : ProcState)
    (ops1 ops2 : List Op) :
    runOps T s (ops1 ++ ops2) = runOps T (runOps T s ops1) ops2 := by
  induction ops1 generalizing s with
  | nil => rfl
  | cons op rest ih =>
      simp only [List.cons_append, runOps]
      exact ih _

theorem inv_run (T : Image → TransformResult) (ops : List Op) :
    ∀ s seen, Inv s seen → (seen ++ subIds ops).Nodup →
      Inv (runOps T s ops) (seen ++ subIds ops) ∧
      (∀ id e, s.results_cache id = some e →
        (runOps T s ops).results_cache id = some e) := by
  induction ops with
  | nil =>
      intro s seen hI _
      constructor
      · simpa [runOps, subIds] using hI
      · exact fun _ _ h => h
  | cons op rest ih =>
      intro s seen hI hnd
      have hsub : subIds (op :: rest) = opIds op ++ subIds rest := by
        simp [subIds]
      rw [hsub] at hnd ⊢
      rw [← List.append_assoc] at hnd ⊢
      have hfresh : ∀ id ∈ opIds op, id ∉ seen := by
        intro id hid hseen
        have h1 : (seen ++ opIds op).Nodup :=
          ((List.nodup_append).mp hnd).1
        exact ((List.nodup_append).mp h1).2.2 hseen hid
      have step := inv_step T s seen op hI hfresh
      have run := ih (applyOp T s op) (seen ++ opIds op) step.1 hnd
      exact ⟨run.1, fun id e he => run.2 id e (step.2 id e he)⟩

/-- C3 (amended): for every sequence of submit and worker-processing
operations in which all submitted identifiers are pairwise distinct (as
the spec's data model stipulates — "Identifier is unique per
submission"), once a Result is present in the Result Store under some
identifier, that entry is never mutated or deleted by any later
operation. -/
theorem C3_thm (T : Image → TransformResult) (ops1 ops2 : List Op) (id : String)
    (e : Entry) (hnd : (subIds (ops1 ++ ops2)).Nodup)
    (he : (runOps T initState ops1).results_cache id = some e) :
    (runOps T initState (ops1 ++ ops2)).results_cache id = some e := by
  have hInit : Inv initState [] := by
    refine ⟨by simp [initState], by simp [initState], by simp [initState]⟩
  rw [subIds_append] at hnd
  have hnd1 : (([] : List String) ++ subIds ops1).Nodup := by
    simpa using ((List.nodup_append).mp hnd).1
  have run1 := inv_run T ops1 initState [] hInit hnd1
  have hInv1 : Inv (runOps T initState ops1) (subIds ops1) := by
    simpa using run1.1
  have hnd2 : (subIds ops1 ++ subIds ops2).Nodup := hnd
  have run2 := inv_run T ops2 (runOps T initState ops1) (subIds ops1) hInv1 hnd2
  rw [runOps_append]
  exact run2.2 id e he


/-- Processing the 1×1 image `[[0]]` with the concrete Transform: the
gradient raises, so the error entry is written. -/
theorem process_one (s : ProcState) (id : String) (dur now : ℚ) :
    process_image quantumTransform s id [[(0:ℚ)]] dur now =
    { s with results_cache := cacheInsert s.results_cache id (errorEntry id gradErrMsg),
             stats := { s.stats with errors := s.stats.errors + 1 } } :=
  process_exn _ _ _ _ _ _ _ (transform_small [[(0:ℚ)]] (by right; decide))

/-- C3 counterexample: submit identifier "a" with the zero image and let a
worker finish it (a Success Result is stored), then submit the same
identifier "a" again with a failing image and let a worker process it —
the stored Result for "a" is replaced by a different (error) entry, so a
later operation does mutate an existing Result Store entry. -/
theorem C3_cex :
    (get_result (runOps quantumTransform initState
        [.submit zeroImg4 (some "a") 0, .work 1 1]) "a").isSome ∧
    get_result (runOps quantumTransform initState
        ([.submit zeroImg4 (some "a") 0, .work 1 1] ++
         [.submit [[(0:ℚ)]] (some "a") 2, .work 1 3])) "a" ≠
      get_result (runOps quantumTransform initState
        [.submit zeroImg4 (some "a") 0, .work 1 1]) "a" := by
  have h1 : get_result (runOps quantumTransform initState
      [.submit zeroImg4 (some "a") 0, .work 1 1]) "a" =
      some (zeroSuccessEntry "a" 1 1) := by
    simp [runOps, applyOp, submit_image, workerStep, process_zero, initState, initStats,
      get_result, cacheInsert]
  have h2 : get_result (runOps quantumTransform initState
      ([.submit zeroImg4 (some "a") 0, .work 1 1] ++
       [.submit [[(0:ℚ)]] (some "a") 2, .work 1 3])) "a" =
      some (errorEntry "a" gradErrMsg) := by
    simp [runOps, applyOp, submit_image, workerStep, process_zero, process_one, initState,
      initStats, get_result, cacheInsert]
  rw [h1, h2]
  refine ⟨rfl, ?_⟩
  simp [errorEntry, errorResult, zeroSuccessEntry, successEntry]

/-- C3 witness: with two distinct identifiers the Success Result stored
for "a" survives the later submission and processing of "b" unchanged. -/
theorem C3_witness :
    (runOps quantumTransform initState
        ([.submit zeroImg4 (some "a") 0, .work 1 1] ++
         [.submit zeroImg4 (some "b") 2, .work 1 3])).results_cache "a" =
      some (zeroSuccessEntry "a" 1 1) :=
  C3_thm quantumTransform [.submit zeroImg4 (some "a") 0, .work 1 1]
    [.submit zeroImg4 (some "b") 2, .work 1 3] "a" (zeroSuccessEntry "a" 1 1)
    (by decide)
    (by simp [runOps, applyOp, submit_image, workerStep, process_zero, initState,
      initStats, cacheInsert])


/-- The operation sequence of the C8 scenario: ten submissions of the
4×4 all-zero image under ten distinct identifiers, then ten worker
steps. -/
def c8ops : List Op :=
  [.submit zeroImg4 (some "a0") 0, .submit zeroImg4 (some "a1") 0,
   .submit zeroImg4 (some "a2") 0, .submit zeroImg4 (some "a3") 0,
   .submit zeroImg4 (some "a4") 0, .submit zeroImg4 (some "a5") 0,
   .submit zeroImg4 (some "a6") 0, .submit zeroImg4 (some "a7") 0,
   .submit zeroImg4 (some "a8") 0, .submit zeroImg4 (some "a9") 0,
   .work 1 1, .work 1 1, .work 1 1, .work 1 1, .work 1 1,
   .work 1 1, .work 1 1, .work 1 1, .work 1 1, .work 1 1]

/-- C8: submitting ten identical 4×4 all-zero images under ten distinct
identifiers and letting workers drain the queue yields ten Results, all
with status `success` and `edge_detection_quality` 0 (the gradient of an
all-zero image vanishes, so the clipped edge map and its standard
deviation are 0), with `processed_images = 10` and `errors = 0`. -/
theorem C8_thm :
    (runOps quantumTransform initState c8ops).stats.processed_images = 10 ∧
    (runOps quantumTransform initState c8ops).stats.errors = 0 ∧
    ∀ id ∈ ["a0", "a1", "a2", "a3", "a4", "a5", "a6", "a7", "a8", "a9"],
      fieldOf (runOps quantumTransform initState c8ops) id "status" =
        some (.vStr "success") ∧
      fieldOf (runOps quantumTransform initState c8ops) id "edge_detection_quality" =
        some (.vReal 0) := by
  refine ⟨?_, ?_, ?_⟩
  · simp [c8ops, runOps, applyOp, submit_image, workerStep, process_zero, initState,
      initStats]
  · simp [c8ops, runOps, applyOp, submit_image, workerStep, process_zero, initState,
      initStats]
  · intro id hid
    simp only [List.mem_cons, List.not_mem_nil, or_false] at hid
    rcases hid with rfl | rfl | rfl | rfl | rfl | rfl | rfl | rfl | rfl | rfl <;>
      refine ⟨?_, ?_⟩ <;>
      simp [c8ops, runOps, applyOp, submit_image, workerStep, process_zero, initState,
        initStats, fieldOf, resultDictOf, cacheInsert, dlookup, zeroSuccessEntry,
        successEntry, successResult]

theorem process_image_is_running (T : Image → TransformResult) (s : ProcState)
    (id : String) (img : Image) (dur now : ℚ) :
    (process_image T s id img dur now).is_running = s.is_running := by
  cases hT : T img with
  | exn msg => rw [process_exn T s id img dur now msg hT]
  | ok em cl nq fs =>
      by_cases h0 : npSize img = 0
      · rw [process_ok_empty T s id img dur now em cl nq fs hT h0]
      · rw [process_ok T s id img dur now em cl nq fs hT h0]

theorem applyOp_is_running (T : Image → TransformResult) (s : ProcState) (op : Op) :
    (applyOp T s op).is_running = s.is_running := by
  cases op with
  | pollResult id => rfl
  | pollStats => rfl
  | submit img image_id now => rfl
  | work dur now =>
      simp only [applyOp]
      cases hq : s.queue with
      | nil => rw [workerStep_nil T s dur now hq]
      | cons t rest =>
          obtain ⟨id, img⟩ := t
          rw [workerStep_cons T s id img rest dur now hq]
          exact process_image_is_running T _ id img dur now

/-- C5: evidence that the source has no shutdown path — across every
sequence of pipeline operations `is_running` stays `true` (nothing ever
clears it or enqueues the worker-exit sentinel), and `submit_image`
unconditionally enqueues the task and returns the identifier in every
state, so no state rejects submissions. -/
theorem C5_no_shutdown (T : Image → TransformResult) (ops : List Op) :
    (runOps T initState ops).is_running = true ∧
    ∀ (s : ProcState) (img : Image) (image_id : Option String) (now : ℚ),
      (submit_image s img image_id now).2.queue =
        s.queue ++ [((submit_image s img image_id now).1, img)] := by
  constructor
  · have key : ∀ ops' (s : ProcState), (runOps T s ops').is_running = s.is_running := by
      intro ops'
      induction ops' with
      | nil => intro s; rfl
      | cons op rest ih => intro s; rw [runOps, ih, applyOp_is_running]
    rw [key ops initState]; rfl
  · intro s img image_id now
    simp [submit_image]

end QImg
